import Mathlib

/-!
# A verification development for the voice-driven conversational agent

This file gives a shallow embedding, in Lean 4, of the core pipeline of the
agent: the response sanitizer (`llm_client.py`, `OllamaClient._clean_response`
and `generate_response`), the conversation context window (`conversation.py`,
`ConversationManager.get_conversation_context`), the audio level / silence
helpers (`utils.py`), and the capture/processing loop (`audio_agent.py`,
`AudioAgent._record_audio`, `_process_audio`, `_reset_recording`,
`_generate_and_speak_response`).

Modelling conventions:
* Python strings are `List Char`; `str.strip`, `str.rstrip`, `str.split('.')`,
  `'. '.join`, `startswith` and `endswith` are embedded by the `py*` helpers
  below (ASCII whitespace).
* Audio sample buffers are `List ℚ`.  The float RMS
  `sqrt(mean(x**2))` is embedded as `calculate_audio_level : List ℚ → ℝ`
  (a real-valued specification function); the executable Boolean twins
  `silenceB`, `levelLtB`, `levelGtB` compare the mean square against the
  squared threshold, which is equivalent for the positive thresholds the
  program uses (bridge lemmas `levelLtB_iff`, `levelGtB_iff`, `silenceB_iff`).
* Wall-clock time is discretized: each incoming frame carries the value that
  `time.time()` returns while that frame is handled.
* The external collaborators (Whisper transcription, the Ollama HTTP call,
  pyttsx3 speech) are modelled by outcome parameters: `TranscriptionOutcome`
  supplies the transcript, `GenOutcome` selects which branch of
  `generate_response` runs, and a `Bool` says whether speech playback raised.
-/

/-! ## Python string primitives -/

/-- ASCII whitespace as stripped by Python `str.strip()`. -/
def isPySpace (c : Char) : Bool :=
  c = ' ' || c = '\t' || c = '\n' || c = '\r' || c = '\x0b' || c = '\x0c'

/-- Python `str.lstrip()`. -/
def pyLstrip (s : List Char) : List Char := s.dropWhile isPySpace

/-- Python `str.rstrip()`. -/
def pyRstrip (s : List Char) : List Char := (s.reverse.dropWhile isPySpace).reverse

/-- Python `str.strip()`. -/
def pyStrip (s : List Char) : List Char := pyRstrip (pyLstrip s)

/-- Python `str.rstrip(".")`: remove every trailing `'.'`. -/
def rstripDots (s : List Char) : List Char := (s.reverse.dropWhile (· = '.')).reverse

/-! ## The response sanitizer: `OllamaClient._clean_response` -/

/-- The role labels `_clean_response` strips from the front of a response
(`prefixes_to_remove` in the source, in source order). -/
def roleLabels : List (List Char) :=
  ["Assistant:".data, "AI:".data, "Bot:".data, "Response:".data]

/-- The prefix-stripping loop of `_clean_response`: for each label in order,
if the current text starts with it, drop it and `strip()` the remainder. -/
def stripRoleLabels (s : List Char) : List Char :=
  roleLabels.foldl (fun r p => if p.isPrefixOf r then pyStrip (r.drop p.length) else r) s

/-- `response.rstrip().endswith("1.") or ... ("2.") or ... ("3.")`:
the unfinished-enumerated-item test of `_clean_response`. -/
def endsEnum (s : List Char) : Bool :=
  "1.".data.isSuffixOf (pyRstrip s) || "2.".data.isSuffixOf (pyRstrip s) ||
    "3.".data.isSuffixOf (pyRstrip s)

/-- The ellipsis stanza of `_clean_response`: if the text ends with `"..."`
or `".."`, remove every trailing `'.'`. -/
def stepEllipsis (r : List Char) : List Char :=
  if "...".data.isSuffixOf r || "..".data.isSuffixOf r then rstripDots r else r

/-- The incomplete-numbered-list stanza of `_clean_response`: when the
rstripped text ends in `"1."`, `"2."` or `"3."`, split on `'.'`, drop the last
fragment, rejoin with `". "`, strip, and re-append a single `'.'`. -/
def stepEnum (r : List Char) : List Char :=
  if endsEnum r then
    let sentences := r.splitOn '.'
    if 1 < sentences.length then
      pyStrip (List.intercalate ". ".data sentences.dropLast) ++ ".".data
    else r
  else r

/-- The terminal-punctuation stanza of `_clean_response`: append `'.'` when
the text is nonempty and does not already end in `'.'`, `'!'` or `'?'`. -/
def stepPunct (r : List Char) : List Char :=
  if r.isEmpty || ".".data.isSuffixOf r || "!".data.isSuffixOf r ||
      "?".data.isSuffixOf r then r
  else r ++ ".".data

/-- `OllamaClient._clean_response` (llm_client.py): strip role labels, strip a
trailing ellipsis, drop the fragment after the last `'.'` when the text ends in
an enumerated item, force terminal punctuation, and `strip()` the result. -/
def cleanResponse (s : List Char) : List Char :=
  pyStrip (stepPunct (stepEnum (stepEllipsis (stripRoleLabels s))))

/-! ## `OllamaClient.generate_response`

The HTTP call to Ollama is external; `GenOutcome` records how it went.  On a
200 response the generated text is cleaned and length-limited; every failure
branch returns a fixed apology string. -/

/-- How the generation request went: a 200 response whose `response` field is
`raw`, a non-200 status, a timeout, a lost connection, or any other exception
(the four `except`/error branches of `generate_response`). -/
inductive GenOutcome where
  | success (raw : List Char)
  | httpError
  | timeout
  | connError
  | exception

/-- The apology for the empty-generation branch of `generate_response`. -/
def apologyEmpty : List Char :=
  "I'm sorry, I couldn't generate a response. Please try again.".data

/-- The apology for the non-200-status branch of `generate_response`. -/
def apologyHttpError : List Char :=
  "I'm sorry, there was an error generating the response. Please try again.".data

/-- The apology for the timeout branch of `generate_response`. -/
def apologyTimeout : List Char :=
  "I'm sorry, the request timed out. Please try again.".data

/-- The apology for the lost-connection branch of `generate_response`. -/
def apologyConnError : List Char :=
  "I'm sorry, I lost connection to the language model. Please check if Ollama is running.".data

/-- The apology for the generic exception branch of `generate_response`. -/
def apologyException : List Char :=
  "I'm sorry, an unexpected error occurred. Please try again.".data

/-- Whether a `GenOutcome` is one of the four failure branches. -/
def GenOutcome.isFailure : GenOutcome → Bool
  | .success _ => false
  | _ => true

/-- The fixed apology string each failure branch of `generate_response`
returns (`[]` for the success constructor, which does not use one). -/
def apologyFor : GenOutcome → List Char
  | .success _ => []
  | .httpError => apologyHttpError
  | .timeout => apologyTimeout
  | .connError => apologyConnError
  | .exception => apologyException

/-- `OllamaClient.generate_response` (llm_client.py), as a function of the
call's outcome.  On success the raw text is stripped; if empty, the
empty-generation apology is returned; otherwise the text is cleaned by
`_clean_response` and, if longer than 400 characters, truncated to its first
three sentences (or hard-truncated to 400 characters).  The conversation
context and system prompt only shape the external request, not this value. -/
def generate_response (g : GenOutcome) : List Char :=
  match g with
  | .success raw =>
    let t := pyStrip raw
    if t.isEmpty then apologyEmpty
    else
      let c := cleanResponse t
      if 400 < c.length then
        let sentences := c.splitOn '.'
        if 3 < sentences.length then
          pyStrip (List.intercalate ". ".data (sentences.take 3)) ++ ".".data
        else pyStrip (c.take 400)
      else c
  | .httpError => apologyHttpError
  | .timeout => apologyTimeout
  | .connError => apologyConnError
  | .exception => apologyException

/-! ## Conversation memory: `conversation.py` -/

/-- `Message` (conversation.py): role (`"user"` or `"assistant"`), content, and
the optional audio duration and transcription confidence.  The wall-clock
`timestamp` string is not modelled. -/
structure Message where
  role : String
  content : List Char
  audioDuration : Option ℚ
  confidence : Option ℚ
deriving DecidableEq

/-- The token estimate `len(message.content) // 4` used by
`get_conversation_context`. -/
def estTokens (m : Message) : ℕ := m.content.length / 4

/-- The `f"{role}: {message.content}"` line built for one message, with
`role = "User" if message.role == "user" else "Assistant"`. -/
def renderMessage (m : Message) : List Char :=
  (if m.role = "user" then "User".data else "Assistant".data) ++ ": ".data ++ m.content

/-- `messages[-20:]`: the trailing window of at most 20 messages. -/
def recentWindow (msgs : List Message) : List Message :=
  msgs.drop (msgs.length - 20)

/-- The accumulation loop of `get_conversation_context`: walk the window in
order, keep a running token total, and `break` at the first message whose
estimate would push the total over `maxTokens`.  Returns the kept messages. -/
def contextTaken : List Message → ℕ → ℕ → List Message
  | [], _, _ => []
  | m :: rest, cur, maxTokens =>
    if maxTokens < cur + estTokens m then []
    else m :: contextTaken rest (cur + estTokens m) maxTokens

/-- `ConversationManager.get_conversation_context` (conversation.py): render
the kept messages of the trailing 20-message window, joined by `"\n"`.
An empty message list yields `""`. -/
def get_conversation_context (msgs : List Message) (maxTokens : ℕ) : List Char :=
  if msgs = [] then []
  else List.intercalate "\n".data ((contextTaken (recentWindow msgs) 0 maxTokens).map renderMessage)

/-- `ConversationManager.add_user_message`: append a user `Message`. -/
def userMessage (text : List Char) (dur : ℚ) (conf : ℚ) : Message :=
  ⟨"user", text, some dur, some conf⟩

/-- `ConversationManager.add_assistant_message`: append an assistant `Message`. -/
def assistantMessage (text : List Char) : Message :=
  ⟨"assistant", text, none, none⟩

/-! ## Audio level and silence: `utils.py` -/

/-- The mean of the squared samples (`np.mean(audio_data**2)`), `0` on an
empty buffer. -/
def meanSquare (xs : List ℚ) : ℚ :=
  if xs = [] then 0 else (xs.map fun x => x * x).sum / xs.length

/-- `calculate_audio_level` (utils.py): the RMS `sqrt(mean(x**2))` of a sample
buffer, `0.0` when the buffer has zero samples. -/
noncomputable def calculate_audio_level (xs : List ℚ) : ℝ :=
  if xs = [] then 0 else Real.sqrt (meanSquare xs)

/-- `detect_silence` (utils.py): `True` on zero samples, otherwise whether the
RMS is below the threshold. -/
def detect_silence (xs : List ℚ) (threshold : ℚ) : Prop :=
  if xs = [] then True else calculate_audio_level xs < (threshold : ℝ)

/-- Executable twin of `calculate_audio_level xs < t`: empty, or mean square
below the squared threshold (equivalent for `0 < t`, see `levelLtB_iff`). -/
def levelLtB (xs : List ℚ) (t : ℚ) : Bool :=
  xs.isEmpty || decide (meanSquare xs < t * t)

/-- Executable twin of `t < calculate_audio_level xs` (equivalent for
`0 ≤ t`, see `levelGtB_iff`). -/
def levelGtB (xs : List ℚ) (t : ℚ) : Bool :=
  !xs.isEmpty && decide (t * t < meanSquare xs)

/-- Executable twin of `detect_silence` (equivalent for `0 < threshold`,
see `silenceB_iff`). -/
def silenceB (xs : List ℚ) (threshold : ℚ) : Bool :=
  levelLtB xs threshold

/-! ## Configuration constants (config.py, `AUDIO_CONFIG`) -/

/-- `AUDIO_CONFIG["sample_rate"]`. -/
def sample_rate : ℚ := 16000

/-- `AUDIO_CONFIG["chunk_size"]`. -/
def chunk_size : ℚ := 1024

/-- `AUDIO_CONFIG["silence_threshold"]`. -/
def silence_threshold : ℚ := 1/100

/-- `AUDIO_CONFIG["silence_duration"]` (seconds). -/
def silence_duration : ℚ := 1

/-- `AUDIO_CONFIG["max_recording_duration"]` (seconds). -/
def max_recording_duration : ℚ := 30

/-- The hardcoded `0.02` total-level gate of `_record_audio` ("Only process if
audio level is above threshold"), the `minUtteranceLevel` of the design. -/
def min_utterance_level : ℚ := 2/100

/-- The hardcoded `0.01` low-level gate of `_process_audio`. -/
def process_level_floor : ℚ := 1/100

/-- The hardcoded `1.0` second minimum duration gate of `_process_audio`. -/
def min_process_duration : ℚ := 1

/-! ## The agent state and processing cycle: `audio_agent.py` -/

/-- The mutable state of `AudioAgent` that the capture/processing code reads
and writes: the chunk buffer, the silence-since timestamp, the single-flight
`is_processing` gate, and the conversation messages. -/
structure AgentState where
  audio_buffer : List (List ℚ)
  silence_start : Option ℚ
  is_processing : Bool
  messages : List Message
deriving DecidableEq

/-- How the external Whisper transcription went: a transcript (already a
string, possibly empty) with its confidence, or an exception. -/
inductive TranscriptionOutcome where
  | ok (text : List Char) (confidence : ℚ)
  | failed

/-- `AudioAgent._reset_recording`: clear the buffer and the silence timestamp
and release the `is_processing` gate. -/
def _reset_recording (s : AgentState) : AgentState :=
  { s with audio_buffer := [], silence_start := none, is_processing := false }

/-- `AudioAgent._generate_and_speak_response`: compute the context (shaping
only the external request), obtain the generated response, record it as an
assistant message unless it is empty, then speak it (a playback failure,
`ttsOk = false`, is caught and changes nothing). -/
def _generate_and_speak_response (s : AgentState) (g : GenOutcome) (_ttsOk : Bool) : AgentState :=
  let response := generate_response g
  if response.isEmpty then s
  else { s with messages := s.messages ++ [assistantMessage response] }

/-- `AudioAgent._process_audio`: the processing cycle.  Returns the new state
and whether transcription was attempted.  With the gate held or an empty
buffer it returns immediately (no reset).  Otherwise: concatenate the buffer;
drop it if shorter than 1.0 s or below the 0.01 level floor; transcribe
(`tr`); drop an empty transcript; otherwise record the user message, generate
and speak a response, and reset in the `finally` block. -/
def _process_audio (s : AgentState) (tr : TranscriptionOutcome) (g : GenOutcome)
    (ttsOk : Bool) : AgentState × Bool :=
  if s.is_processing || s.audio_buffer.isEmpty then (s, false)
  else
    let audio := s.audio_buffer.flatten
    let recording_duration : ℚ := (audio.length : ℚ) / sample_rate
    if recording_duration < min_process_duration then (_reset_recording s, false)
    else if levelLtB audio process_level_floor then (_reset_recording s, false)
    else
      match tr with
      | .failed => (_reset_recording s, true)
      | .ok text conf =>
        if text.isEmpty then (_reset_recording s, true)
        else
          let s1 := { s with messages := s.messages ++ [userMessage text recording_duration conf] }
          (_reset_recording (_generate_and_speak_response s1 g ttsOk), true)

/-- One frame arriving at the capture loop: the samples, the `time.time()`
value while it is handled, and the outcomes of the external calls a processing
cycle triggered at this frame would see. -/
structure FrameIn where
  frame : List ℚ
  now : ℚ
  tr : TranscriptionOutcome
  gen : GenOutcome
  ttsOk : Bool

/-- What one iteration of the capture loop did beyond buffering: invoked
`_process_audio` (recording whether transcription was attempted), or hit the
"Silence detected, ignoring" discard. -/
inductive LoopEvent where
  | processed (transcribed : Bool)
  | discarded
deriving DecidableEq

/-- The silence-timeout test of `_record_audio`: the silence timestamp is set,
more than `silence_duration` seconds have passed, and the buffer is nonempty. -/
def silenceFired (s : AgentState) (now : ℚ) : Bool :=
  match s.silence_start with
  | none => false
  | some t0 => decide (silence_duration < now - t0) && !s.audio_buffer.isEmpty

/-- The duration-cap test of `_record_audio`:
`len(buffer) * chunk_size / sample_rate > max_recording_duration`. -/
def durationExceeded (s : AgentState) : Bool :=
  decide (max_recording_duration < (s.audio_buffer.length : ℚ) * chunk_size / sample_rate)

/-- One iteration of the `while` loop of `AudioAgent._record_audio`: append
the frame, update the silence timestamp from `detect_silence`, then either
finish the utterance (silence path: process when the total level exceeds
`0.02`, else discard; duration path: process unconditionally) or keep
accumulating. -/
def _record_audio_step (s0 : AgentState) (inp : FrameIn) : AgentState × Option LoopEvent :=
  let s1 := { s0 with audio_buffer := s0.audio_buffer ++ [inp.frame] }
  let s2 :=
    if silenceB inp.frame silence_threshold then
      { s1 with silence_start := some (s1.silence_start.getD inp.now) }
    else { s1 with silence_start := none }
  if silenceFired s2 inp.now then
    if levelGtB s2.audio_buffer.flatten min_utterance_level then
      let p := _process_audio s2 inp.tr inp.gen inp.ttsOk
      (p.1, some (.processed p.2))
    else (_reset_recording s2, some .discarded)
  else if durationExceeded s2 then
    let p := _process_audio s2 inp.tr inp.gen inp.ttsOk
    (p.1, some (.processed p.2))
  else (s2, none)

/-- The capture loop run over a list of incoming frames, collecting the
per-iteration events in order. -/
def _record_audio : AgentState → List FrameIn → AgentState × List LoopEvent
  | s, [] => (s, [])
  | s, inp :: rest =>
    let step := _record_audio_step s inp
    let tail := _record_audio step.1 rest
    (tail.1, step.2.toList ++ tail.2)

/-- Every state the capture loop passes through (after each whole iteration),
the start state included. -/
def traceStates : AgentState → List FrameIn → List AgentState
  | s, [] => [s]
  | s, inp :: rest => s :: traceStates (_record_audio_step s inp).1 rest

/-- The buffered duration the loop's cap test measures:
`len(buffer) * chunk_size / sample_rate`. -/
def bufDuration (s : AgentState) : ℚ :=
  (s.audio_buffer.length : ℚ) * chunk_size / sample_rate

/-- The capture loop's start state (`start_listening`): empty buffer, no
silence timestamp, gate free. -/
def listeningState (msgs : List Message) : AgentState :=
  ⟨[], none, false, msgs⟩

/-- Along a run, whenever the freshly appended frame pushes the buffered
duration over the cap, that same iteration finalizes the utterance (invokes
`_process_audio`). -/
def capFinalizes : AgentState → List FrameIn → Prop
  | _, [] => True
  | s, inp :: rest =>
    (max_recording_duration <
        bufDuration { s with audio_buffer := s.audio_buffer ++ [inp.frame] } →
      ∃ b, (_record_audio_step s inp).2 = some (.processed b))
    ∧ capFinalizes (_record_audio_step s inp).1 rest

/-! ## Helper lemmas: Python string operations -/

theorem dropWhile_dropWhile {α : Type} (p : α → Bool) (l : List α) :
    List.dropWhile p (List.dropWhile p l) = List.dropWhile p l := by
  induction l with
  | nil => rfl
  | cons a t ih =>
    cases h : p a
    · simp [List.dropWhile_cons, h]
    · simp [List.dropWhile_cons, h, ih]

theorem pyLstrip_idem (s : List Char) : pyLstrip (pyLstrip s) = pyLstrip s :=
  dropWhile_dropWhile isPySpace s

theorem pyRstrip_idem (s : List Char) : pyRstrip (pyRstrip s) = pyRstrip s := by
  simp [pyRstrip, List.reverse_reverse, dropWhile_dropWhile]

theorem pyRstrip_isPre (s : List Char) : pyRstrip s <+: s := by
  have h : List.dropWhile isPySpace s.reverse <:+ s.reverse := List.dropWhile_suffix _
  have h2 := List.reverse_prefix.mpr h
  rwa [List.reverse_reverse] at h2

theorem pyLstrip_pyRstrip (s : List Char) :
    pyLstrip (pyRstrip (pyLstrip s)) = pyRstrip (pyLstrip s) := by
  have hud : pyLstrip (pyLstrip s) = pyLstrip s := pyLstrip_idem s
  rcases hv : pyRstrip (pyLstrip s) with _ | ⟨a, t⟩
  · rfl
  · have hp : pyRstrip (pyLstrip s) <+: pyLstrip s := pyRstrip_isPre _
    rw [hv] at hp
    obtain ⟨w, hw⟩ := hp
    have hu2 : pyLstrip s = a :: (t ++ w) := by rw [← hw]; simp
    cases ha : isPySpace a
    · show List.dropWhile isPySpace (a :: t) = a :: t
      simp [List.dropWhile_cons, ha]
    · exfalso
      rw [hu2] at hud
      simp only [pyLstrip, List.dropWhile_cons, ha, if_pos] at hud
      have hl := (List.dropWhile_sublist (l := t ++ w) isPySpace).length_le
      rw [hud] at hl
      simp at hl

theorem pyStrip_idem (s : List Char) : pyStrip (pyStrip s) = pyStrip s := by
  show pyRstrip (pyLstrip (pyRstrip (pyLstrip s))) = pyRstrip (pyLstrip s)
  rw [pyLstrip_pyRstrip, pyRstrip_idem]

theorem pyRstrip_last_not_space {c : Char} (hc : isPySpace c = false) (t : List Char) :
    pyRstrip (t ++ [c]) = t ++ [c] := by
  simp [pyRstrip, List.dropWhile_cons, hc]

theorem pyLstrip_last {c : Char} (hc : isPySpace c = false) (t : List Char) :
    ∃ u, pyLstrip (t ++ [c]) = u ++ [c] := by
  induction t with
  | nil => exact ⟨[], by simp [pyLstrip, List.dropWhile_cons, hc]⟩
  | cons a t1 ih =>
    cases ha : isPySpace a
    · exact ⟨a :: t1, by simp [pyLstrip, List.dropWhile_cons, ha]⟩
    · obtain ⟨u, hu⟩ := ih
      exact ⟨u, by simpa [pyLstrip, List.dropWhile_cons, ha] using hu⟩

theorem pyStrip_last {c : Char} (hc : isPySpace c = false) (t : List Char) :
    ∃ u, pyStrip (t ++ [c]) = u ++ [c] := by
  obtain ⟨u, hu⟩ := pyLstrip_last hc t
  exact ⟨u, by rw [pyStrip, hu, pyRstrip_last_not_space hc]⟩

/-! ## Helper lemmas: the sanitizer -/

theorem cleanResponse_strip (s : List Char) :
    pyStrip (cleanResponse s) = cleanResponse s :=
  pyStrip_idem _

theorem stripRoleLabels_id {s : List Char}
    (h1 : ¬ ("Assistant:".data <+: s)) (h2 : ¬ ("AI:".data <+: s))
    (h3 : ¬ ("Bot:".data <+: s)) (h4 : ¬ ("Response:".data <+: s)) :
    stripRoleLabels s = s := by
  simp [stripRoleLabels, roleLabels, h1, h2, h3, h4]

theorem ddd_suffix_dd {s : List Char} (h : "...".data.isSuffixOf s = true) :
    "..".data.isSuffixOf s = true := by
  rw [List.isSuffixOf_iff_suffix] at h ⊢
  exact List.IsSuffix.trans (by decide) h

theorem pyStrip_suffix_keeps {c : Char} (hc : isPySpace c = false) {r : List Char}
    (h : [c].isSuffixOf r = true) : [c].isSuffixOf (pyStrip r) = true := by
  rw [List.isSuffixOf_iff_suffix] at h ⊢
  obtain ⟨t, ht⟩ := h
  obtain ⟨u, hu⟩ := pyStrip_last hc t
  rw [← ht, hu]
  exact List.suffix_append u [c]

theorem stepPunct_terminal (r : List Char) :
    pyStrip (stepPunct r) = [] ∨ (".".data.isSuffixOf (pyStrip (stepPunct r)) ||
      "!".data.isSuffixOf (pyStrip (stepPunct r)) ||
      "?".data.isSuffixOf (pyStrip (stepPunct r))) = true := by
  unfold stepPunct
  cases hcond : (r.isEmpty || ".".data.isSuffixOf r || "!".data.isSuffixOf r ||
      "?".data.isSuffixOf r)
  · rw [if_neg (by simp [hcond])]
    right
    have h : [('.' : Char)].isSuffixOf (r ++ ".".data) = true := by
      rw [List.isSuffixOf_iff_suffix]
      exact List.suffix_append r ".".data
    simp [pyStrip_suffix_keeps (by decide) h]
  · rw [if_pos (by simp [hcond])]
    simp only [Bool.or_eq_true] at hcond
    rcases hcond with ((he | hd) | hb) | hq
    · left
      have : r = [] := by simpa [List.isEmpty_iff] using he
      simp [this, pyStrip, pyLstrip, pyRstrip]
    · right; simp [pyStrip_suffix_keeps (c := '.') (by decide) hd]
    · right; simp [pyStrip_suffix_keeps (c := '!') (by decide) hb]
    · right; simp [pyStrip_suffix_keeps (c := '?') (by decide) hq]

theorem cleanResponse_terminal (s : List Char) :
    cleanResponse s = [] ∨ (".".data.isSuffixOf (cleanResponse s) ||
      "!".data.isSuffixOf (cleanResponse s) || "?".data.isSuffixOf (cleanResponse s)) = true :=
  stepPunct_terminal (stepEnum (stepEllipsis (stripRoleLabels s)))

/-! ## Helper lemmas: the context window -/

theorem contextTaken_all (l : List Message) : ∀ (cur maxT : ℕ),
    cur + (l.map estTokens).sum ≤ maxT → contextTaken l cur maxT = l := by
  induction l with
  | nil => intro cur maxT _; rfl
  | cons m rest ih =>
    intro cur maxT h
    simp only [List.map_cons, List.sum_cons] at h
    rw [contextTaken, if_neg (by omega)]
    rw [ih (cur + estTokens m) maxT (by omega)]

theorem contextTaken_take (l : List Message) : ∀ (cur maxT : ℕ),
    ∃ k, contextTaken l cur maxT = l.take k := by
  induction l with
  | nil => exact fun _ _ => ⟨0, rfl⟩
  | cons m rest ih =>
    intro cur maxT
    by_cases h : maxT < cur + estTokens m
    · exact ⟨0, by rw [contextTaken, if_pos h]; rfl⟩
    · obtain ⟨k, hk⟩ := ih (cur + estTokens m) maxT
      exact ⟨k + 1, by rw [contextTaken, if_neg h, hk]; rfl⟩

theorem contextTaken_sum (l : List Message) : ∀ (cur maxT : ℕ), cur ≤ maxT →
    cur + ((contextTaken l cur maxT).map estTokens).sum ≤ maxT := by
  induction l with
  | nil => intro cur maxT h; simpa using h
  | cons m rest ih =>
    intro cur maxT h
    by_cases hc : maxT < cur + estTokens m
    · rw [contextTaken, if_pos hc]; simpa using h
    · rw [contextTaken, if_neg hc]
      have := ih (cur + estTokens m) maxT (by omega)
      simp only [List.map_cons, List.sum_cons]
      omega

/-! ## Claim C1: the sanitizer on `"Assistant: Hello there... 1."` -/

/-- C1, counterexample: the response cleaner applied to
`"Assistant: Hello there... 1."` does **not** return `"Hello there."` as the
claim states. -/
theorem c1_counterexample :
    cleanResponse "Assistant: Hello there... 1.".data ≠ "Hello there.".data := by decide

/-- C1, amended: on `"Assistant: Hello there... 1."` the cleaner strips the
`"Assistant:"` label, leaves the ellipsis periods in place (the text ends in
`"1."`, not in `".."`), and the numbered-list stanza only drops the empty
fragment after the final period, so the result is
`"Hello there. . .  1."` — the ellipsis fragments and the unfinished
enumerated item survive. -/
theorem c1_sanitizer_scenario :
    cleanResponse "Assistant: Hello there... 1.".data = "Hello there. . .  1.".data := by decide

/-! ## Claim C2: idempotence of the sanitizer -/

/-- C2, counterexample: the cleaner is not idempotent.  On `"a.1."` the
numbered-list stanza rewrites `"a.1."` to `"a. 1."`, which still ends in
`"1."`, and a second pass rewrites it to `"a.  1."`. -/
theorem c2_counterexample :
    cleanResponse (cleanResponse "a.1.".data) ≠ cleanResponse "a.1.".data := by decide

/-- C2, amended: the cleaner is idempotent on every input whose cleaned form
does not begin with one of the four role labels, does not end in two periods,
and does not end (ignoring trailing whitespace) in an enumerated item `"1."`,
`"2."` or `"3."`.  (The counterexample shows idempotence fails when the
cleaned form retains an enumerated-item tail; it likewise fails when a role
label survives the single stripping pass.) -/
theorem c2_sanitize_idempotent_conditional (x : List Char)
    (h1 : ¬ ("Assistant:".data <+: cleanResponse x))
    (h2 : ¬ ("AI:".data <+: cleanResponse x))
    (h3 : ¬ ("Bot:".data <+: cleanResponse x))
    (h4 : ¬ ("Response:".data <+: cleanResponse x))
    (h5 : "..".data.isSuffixOf (cleanResponse x) = false)
    (h6 : endsEnum (cleanResponse x) = false) :
    cleanResponse (cleanResponse x) = cleanResponse x := by
  have hddd : "...".data.isSuffixOf (cleanResponse x) = false := by
    cases hc : "...".data.isSuffixOf (cleanResponse x)
    · rfl
    · rw [ddd_suffix_dd hc] at h5; exact absurd h5 (by simp)
  have hstep1 : stripRoleLabels (cleanResponse x) = cleanResponse x :=
    stripRoleLabels_id h1 h2 h3 h4
  have hstep2 : stepEllipsis (cleanResponse x) = cleanResponse x := by
    simp [stepEllipsis, hddd, h5]
  have hstep3 : stepEnum (cleanResponse x) = cleanResponse x := by
    simp [stepEnum, h6]
  have hstep4 : stepPunct (cleanResponse x) = cleanResponse x := by
    rcases cleanResponse_terminal x with h | h
    · simp [stepPunct, h]
    · simp only [Bool.or_eq_true] at h
      rcases h with (hd | hb) | hq
      · simp [stepPunct, hd]
      · simp [stepPunct, hb]
      · simp [stepPunct, hq]
  show pyStrip (stepPunct (stepEnum (stepEllipsis (stripRoleLabels (cleanResponse x))))) = _
  rw [hstep1, hstep2, hstep3, hstep4, cleanResponse_strip]

/-- C2, witness: the hypotheses of the amended idempotence theorem hold for
the cleaned form of `"Hello"` (namely `"Hello."`), and the theorem applies. -/
theorem c2_witness :
    ¬ ("Assistant:".data <+: cleanResponse "Hello".data)
    ∧ "..".data.isSuffixOf (cleanResponse "Hello".data) = false
    ∧ endsEnum (cleanResponse "Hello".data) = false
    ∧ cleanResponse (cleanResponse "Hello".data) = cleanResponse "Hello".data :=
  ⟨by decide, by decide, by decide,
    c2_sanitize_idempotent_conditional "Hello".data (by decide) (by decide) (by decide)
      (by decide) (by decide) (by decide)⟩

/-! ## Claim C3: which messages the token budget drops -/

/-- C3, counterexample: with two messages (older `"aaaa"`, newer
`"bbbbbbbb"`) and a budget of 1 token, the context keeps the **oldest**
message of the window and omits the **newest** — the opposite of the claim's
"the messages left out are the oldest of the trailing window, never the
newest". -/
theorem c3_counterexample :
    get_conversation_context
        [⟨"user", "aaaa".data, none, none⟩, ⟨"user", "bbbbbbbb".data, none, none⟩] 1
      = "User: aaaa".data
    ∧ ¬ ("bbbbbbbb".data <:+:
        get_conversation_context
          [⟨"user", "aaaa".data, none, none⟩, ⟨"user", "bbbbbbbb".data, none, none⟩] 1) := by
  decide

/-- C3, amended: the context is always the rendering of an *initial* segment
of the trailing 20-message window — the accumulation walks the window oldest
first and stops at the first message that would exceed the budget, so when the
budget binds it is the **newest** messages of the window that are omitted.
When the whole window fits the budget, the context is exactly the most recent
`min(N, 20)` messages in chronological order. -/
theorem c3_window_truncation (msgs : List Message) (maxT : ℕ) :
    (((recentWindow msgs).map estTokens).sum ≤ maxT →
      get_conversation_context msgs maxT
        = List.intercalate "\n".data ((recentWindow msgs).map renderMessage))
    ∧ ∃ k, get_conversation_context msgs maxT
        = List.intercalate "\n".data (((recentWindow msgs).take k).map renderMessage) := by
  constructor
  · intro h
    by_cases hm : msgs = []
    · subst hm
      simp [get_conversation_context, recentWindow, List.intercalate]
    · rw [get_conversation_context, if_neg hm, contextTaken_all _ 0 maxT (by simpa using h)]
  · by_cases hm : msgs = []
    · subst hm
      exact ⟨0, by simp [get_conversation_context, recentWindow, List.intercalate]⟩
    · obtain ⟨k, hk⟩ := contextTaken_take (recentWindow msgs) 0 maxT
      exact ⟨k, by rw [get_conversation_context, if_neg hm, hk]⟩

/-- C3, witness: for a single short message under a budget of 5 tokens the
whole window fits, and the context is its rendering. -/
theorem c3_witness :
    (((recentWindow [⟨"user", "aaaa".data, none, none⟩]).map estTokens).sum ≤ 5)
    ∧ get_conversation_context [⟨"user", "aaaa".data, none, none⟩] 5
        = List.intercalate "\n".data
            ((recentWindow [⟨"user", "aaaa".data, none, none⟩]).map renderMessage) :=
  ⟨by decide, (c3_window_truncation [⟨"user", "aaaa".data, none, none⟩] 5).1 (by decide)⟩

/-! ## Claim C7: the context budget bounds -/

/-- C7, counterexample: the budget counts only message *content* characters,
while the returned string adds the `"User: "` label, so its own estimate can
exceed `maxTokens`: with one 4-character message and `maxTokens = 1`, the
returned string is `"User: aaaa"` whose estimate `10 / 4 = 2` exceeds 1. -/
theorem c7_counterexample :
    1 < (get_conversation_context [⟨"user", "aaaa".data, none, none⟩] 1).length / 4 := by
  decide

/-- C7, amended: the budget bound holds for the code's own accounting — the
sum of the `len(content) // 4` estimates of the messages included in the
context never exceeds `maxTokens` (the returned string itself additionally
carries role labels and newlines that the budget does not count) — and a
single message whose content estimate exceeds the budget is omitted entirely,
yielding the empty string. -/
theorem c7_token_budget (msgs : List Message) (maxT : ℕ) :
    ((contextTaken (recentWindow msgs) 0 maxT).map estTokens).sum ≤ maxT
    ∧ get_conversation_context msgs maxT
        = (if msgs = [] then []
           else List.intercalate "\n".data
             ((contextTaken (recentWindow msgs) 0 maxT).map renderMessage))
    ∧ (∀ m : Message, maxT < estTokens m → get_conversation_context [m] maxT = []) := by
  refine ⟨?_, rfl, ?_⟩
  · simpa using contextTaken_sum (recentWindow msgs) 0 maxT (Nat.zero_le _)
  · intro m hm
    have hw : recentWindow [m] = [m] := by simp [recentWindow]
    rw [get_conversation_context, if_neg (by simp), hw, contextTaken,
      if_pos (by simpa using hm)]
    rfl

/-- C7, witness: the amended budget bound at a one-message conversation with
`maxTokens = 1`, and the omission of a single over-budget message. -/
theorem c7_witness :
    ((contextTaken (recentWindow [⟨"user", "aaaa".data, none, none⟩]) 0 1).map
        estTokens).sum ≤ 1
    ∧ 1 < estTokens ⟨"user", "bbbbbbbb".data, none, none⟩
    ∧ get_conversation_context [⟨"user", "bbbbbbbb".data, none, none⟩] 1 = [] :=
  ⟨(c7_token_budget [⟨"user", "aaaa".data, none, none⟩] 1).1, by decide,
    (c7_token_budget [⟨"user", "aaaa".data, none, none⟩] 1).2.2
      ⟨"user", "bbbbbbbb".data, none, none⟩ (by decide)⟩

/-! ## Helper lemmas: audio levels -/

theorem meanSquare_nonneg (xs : List ℚ) : 0 ≤ meanSquare xs := by
  unfold meanSquare
  split
  · exact le_refl 0
  · apply div_nonneg
    · apply List.sum_nonneg
      intro x hx
      simp only [List.mem_map] at hx
      obtain ⟨y, _, rfl⟩ := hx
      exact mul_self_nonneg y
    · exact_mod_cast Nat.zero_le _

theorem levelLtB_iff (xs : List ℚ) (t : ℚ) (ht : 0 < t) :
    levelLtB xs t = true ↔ calculate_audio_level xs < (t : ℝ) := by
  by_cases hx : xs = []
  · subst hx
    simp only [levelLtB, List.isEmpty_nil, Bool.true_or, true_iff]
    rw [calculate_audio_level, if_pos rfl]
    exact_mod_cast ht
  · have hbe : xs.isEmpty = false := by simp [hx]
    rw [calculate_audio_level, if_neg hx]
    rw [Real.sqrt_lt' (by exact_mod_cast ht)]
    simp only [levelLtB, hbe, Bool.false_or, decide_eq_true_eq]
    have hcast : ((t : ℝ)) ^ 2 = ((t * t : ℚ) : ℝ) := by push_cast; ring
    rw [hcast]
    exact ⟨fun h => by exact_mod_cast h, fun h => by exact_mod_cast h⟩

theorem levelGtB_iff (xs : List ℚ) (t : ℚ) (ht : 0 ≤ t) :
    levelGtB xs t = true ↔ (t : ℝ) < calculate_audio_level xs := by
  by_cases hx : xs = []
  · subst hx
    simp only [levelGtB, List.isEmpty_nil, Bool.not_true, Bool.false_and,
      Bool.false_eq_true, false_iff, not_lt]
    rw [calculate_audio_level, if_pos rfl]
    exact_mod_cast ht
  · have hbe : xs.isEmpty = false := by simp [hx]
    rw [calculate_audio_level, if_neg hx]
    rw [Real.lt_sqrt (by exact_mod_cast ht)]
    simp only [levelGtB, hbe, Bool.not_false, Bool.true_and, decide_eq_true_eq]
    have hcast : ((t : ℝ)) ^ 2 = ((t * t : ℚ) : ℝ) := by push_cast; ring
    rw [hcast]
    exact ⟨fun h => by exact_mod_cast h, fun h => by exact_mod_cast h⟩

theorem silenceB_iff (xs : List ℚ) (t : ℚ) (ht : 0 < t) :
    silenceB xs t = true ↔ detect_silence xs t := by
  by_cases hx : xs = []
  · subst hx
    simp [silenceB, levelLtB, detect_silence]
  · rw [silenceB, levelLtB_iff xs t ht, detect_silence, if_neg hx]

theorem meanSquare_replicate (n : ℕ) (c : ℚ) (hn : n ≠ 0) :
    meanSquare (List.replicate n c) = c * c := by
  unfold meanSquare
  rw [if_neg (by simp [hn])]
  rw [List.map_replicate, List.sum_replicate, List.length_replicate, nsmul_eq_mul]
  have hnq : (n : ℚ) ≠ 0 := Nat.cast_ne_zero.2 hn
  field_simp

theorem flatten_replicate {α : Type} (m k : ℕ) (c : α) :
    (List.replicate m (List.replicate k c)).flatten = List.replicate (m * k) c := by
  induction m with
  | zero => simp
  | succ m ih =>
    rw [List.replicate_succ, List.flatten_cons, ih, Nat.succ_mul, Nat.add_comm,
      List.replicate_add]

/-! ## Claim C10: totality of the level meter and the silence policy -/

/-- C10: on an empty frame (zero samples) `calculate_audio_level` returns
`0.0` and `detect_silence` returns `True` for every threshold: both functions
guard the zero-sample case before evaluating the RMS. -/
theorem c10_empty_frame_total :
    calculate_audio_level ([] : List ℚ) = 0 ∧ ∀ t : ℚ, detect_silence [] t := by
  refine ⟨by simp [calculate_audio_level], fun t => ?_⟩
  simp [detect_silence]

/-! ## Claim C4: a completion arriving while the gate is held -/

/-- C4, counterexample: with the gate held (`is_processing = true`) and a
nonempty buffer, `_process_audio` returns the state **unchanged** — the buffer
is not cleared and the silence timestamp is not reset, contrary to the claim
that "the capture state (audio buffer and silence-since timestamp) is reset". -/
theorem c4_counterexample :
    (_process_audio ⟨[[(1 : ℚ)]], some 0, true, []⟩ (.ok "hi".data 1) .httpError true).1
      = ⟨[[(1 : ℚ)]], some 0, true, []⟩
    ∧ (_process_audio ⟨[[(1 : ℚ)]], some 0, true, []⟩ (.ok "hi".data 1) .httpError true).1.audio_buffer
        ≠ []
    ∧ (_process_audio ⟨[[(1 : ℚ)]], some 0, true, []⟩ (.ok "hi".data 1) .httpError true).1.silence_start
        ≠ none := by
  refine ⟨rfl, by decide, by decide⟩

/-- C4, amended: when a completed utterance reaches `_process_audio` while a
cycle is in flight, the utterance is dropped (transcription is never
attempted) but the capture state is **left as it was**: the audio buffer and
the silence-since timestamp are not reset, so the buffered audio persists (and
keeps growing as capture appends) while the gate is held. -/
theorem c4_gate_held_drops (s : AgentState) (tr : TranscriptionOutcome) (g : GenOutcome)
    (tb : Bool) (h : s.is_processing = true) :
    _process_audio s tr g tb = (s, false) := by
  simp [_process_audio, h]

/-- C4, witness: the gate-held drop at a concrete busy state. -/
theorem c4_witness :
    (⟨[[(1 : ℚ)]], some 0, true, []⟩ : AgentState).is_processing = true
    ∧ _process_audio ⟨[[(1 : ℚ)]], some 0, true, []⟩ (.ok "hi".data 1) .httpError true
        = (⟨[[(1 : ℚ)]], some 0, true, []⟩, false) :=
  ⟨rfl, c4_gate_held_drops _ _ _ _ rfl⟩

/-! ## Helper lemmas: the processing cycle -/

theorem generate_response_failure {g : GenOutcome} (h : g.isFailure = true) :
    generate_response g = apologyFor g ∧ apologyFor g ≠ [] := by
  cases g
  · simp [GenOutcome.isFailure] at h
  · exact ⟨rfl, by decide⟩
  · exact ⟨rfl, by decide⟩
  · exact ⟨rfl, by decide⟩
  · exact ⟨rfl, by decide⟩

/-- The main path of `_process_audio`: gate free, audio long and loud enough,
transcript nonempty.  The user message is recorded first; the generated
response is appended as an assistant message unless empty; the `finally`
block resets the capture state. -/
theorem process_audio_transcribed (s : AgentState) (text : List Char) (conf : ℚ)
    (g : GenOutcome) (tb : Bool)
    (hp : s.is_processing = false) (hb : s.audio_buffer ≠ [])
    (hd : ¬ ((s.audio_buffer.flatten.length : ℚ) / sample_rate < min_process_duration))
    (hl : levelLtB s.audio_buffer.flatten process_level_floor = false)
    (ht : text ≠ []) :
    _process_audio s (.ok text conf) g tb
      = (⟨[], none, false,
          s.messages
            ++ userMessage text ((s.audio_buffer.flatten.length : ℚ) / sample_rate) conf
              :: (if (generate_response g).isEmpty then []
                  else [assistantMessage (generate_response g)])⟩, true) := by
  have hbe : s.audio_buffer.isEmpty = false := by simp [hb]
  have hte : text.isEmpty = false := by simp [ht]
  rw [_process_audio, hp, hbe]
  simp only [Bool.or_self, Bool.false_eq_true, if_false]
  rw [if_neg hd, hl]
  simp only [Bool.false_eq_true, if_false]
  rw [hte]
  simp only [Bool.false_eq_true, if_false]
  unfold _generate_and_speak_response _reset_recording
  cases hge : (generate_response g).isEmpty
  · simp [hge]
  · simp [hge]

theorem level16000 :
    levelLtB (([List.replicate 16000 (1/10 : ℚ)] : List (List ℚ)).flatten)
      process_level_floor = false := by
  have hfl : ([List.replicate 16000 (1/10 : ℚ)] : List (List ℚ)).flatten
      = List.replicate 16000 (1/10 : ℚ) := by
    rw [List.flatten_cons, List.flatten_nil, List.append_nil]
  rw [hfl, levelLtB, meanSquare_replicate 16000 (1/10) (by norm_num)]
  have hne : List.replicate 16000 (1/10 : ℚ) ≠ [] :=
    List.length_pos.mp (by rw [List.length_replicate]; norm_num)
  have hbe : (List.replicate 16000 (1/10 : ℚ)).isEmpty = false :=
    List.isEmpty_eq_false.mpr hne
  rw [hbe]
  simp only [Bool.false_or, decide_eq_false_iff_not, process_level_floor]
  norm_num

theorem dur16000 :
    ¬ (((([List.replicate 16000 (1/10 : ℚ)] : List (List ℚ)).flatten.length : ℚ))
        / sample_rate < min_process_duration) := by
  simp only [List.flatten_cons, List.flatten_nil, List.append_nil, List.length_replicate,
    sample_rate, min_process_duration]
  norm_num

/-! ## Claim C5: what a failed generation leaves in memory -/

/-- C5, counterexample: a failed generation **does** record an assistant
message.  With a 1-second, level-0.1 utterance transcribed as `"Hi there"` and
the generation call failing with a non-200 status, the conversation afterwards
holds the user message *and* the fixed apology recorded as an assistant
message — contrary to the claim that "no assistant Message is recorded in the
conversation for that failed generation". -/
theorem c5_counterexample :
    (_process_audio ⟨[List.replicate 16000 (1/10 : ℚ)], none, false, []⟩
        (.ok "Hi there".data (9/10)) .httpError true).1.messages
      = [userMessage "Hi there".data 1 (9/10), assistantMessage apologyHttpError] := by
  rw [process_audio_transcribed ⟨[List.replicate 16000 (1/10 : ℚ)], none, false, []⟩
    "Hi there".data (9/10) .httpError true rfl (List.cons_ne_nil _ _) dur16000 level16000
    (by decide)]
  have hge : (generate_response GenOutcome.httpError).isEmpty = false := by decide
  simp only [generate_response] at hge ⊢
  rw [hge]
  simp only [Bool.false_eq_true, if_false, List.nil_append]
  norm_num [sample_rate]

/-- C5, amended: when the generation step fails (non-200 status, timeout, lost
connection or any exception), `generate_response` returns a fixed nonempty
apology string and `_generate_and_speak_response` records it as an assistant
message right after the user message; the capture state still resets (buffer
cleared, gate released), so the system returns to listening — but
ConversationMemory does record the apology as if it were a real answer. -/
theorem c5_generation_failure_records_apology (s : AgentState) (text : List Char) (conf : ℚ)
    (g : GenOutcome) (tb : Bool)
    (hp : s.is_processing = false) (hb : s.audio_buffer ≠ [])
    (hd : ¬ ((s.audio_buffer.flatten.length : ℚ) / sample_rate < min_process_duration))
    (hl : levelLtB s.audio_buffer.flatten process_level_floor = false)
    (ht : text ≠ []) (hg : g.isFailure = true) :
    (_process_audio s (.ok text conf) g tb).1.messages
      = s.messages ++ [userMessage text ((s.audio_buffer.flatten.length : ℚ) / sample_rate) conf,
          assistantMessage (apologyFor g)]
    ∧ apologyFor g ≠ []
    ∧ (_process_audio s (.ok text conf) g tb).1.audio_buffer = []
    ∧ (_process_audio s (.ok text conf) g tb).1.is_processing = false := by
  obtain ⟨hgen, hne⟩ := generate_response_failure hg
  rw [process_audio_transcribed s text conf g tb hp hb hd hl ht]
  have hge : (generate_response g).isEmpty = false := by rw [hgen]; simp [hne]
  refine ⟨?_, hne, rfl, rfl⟩
  rw [hge]
  simp [hgen]

/-- C5, witness: the amended statement at a concrete 1-second utterance with a
timed-out generation call. -/
theorem c5_witness :
    GenOutcome.isFailure .timeout = true
    ∧ (_process_audio ⟨[List.replicate 16000 (1/10 : ℚ)], none, false, []⟩
          (.ok "Hello".data 1) .timeout false).1.messages
        = [] ++ [userMessage "Hello".data
            ((([List.replicate 16000 (1/10 : ℚ)] : List (List ℚ)).flatten.length : ℚ)
              / sample_rate) 1,
            assistantMessage (apologyFor .timeout)]
    ∧ apologyFor .timeout ≠ [] := by
  have h := c5_generation_failure_records_apology
    ⟨[List.replicate 16000 (1/10 : ℚ)], none, false, []⟩ "Hello".data 1 .timeout false
    rfl (List.cons_ne_nil _ _) dur16000 level16000 (by decide) rfl
  exact ⟨rfl, h.1, h.2.1⟩

/-! ## Claim C9: the user message survives downstream failures -/

/-- C9: whenever the processing cycle reaches transcription and it succeeds
with nonempty text, the user message (with the recording duration and
confidence) is appended immediately after the prior messages — for **every**
generation outcome and every speech outcome.  Any assistant message comes
after it, so the user message is recorded before generation and remains
recorded even when generation or speech fails. -/
theorem c9_user_message_recorded (s : AgentState) (text : List Char) (conf : ℚ)
    (g : GenOutcome) (tb : Bool)
    (hp : s.is_processing = false) (hb : s.audio_buffer ≠ [])
    (hd : ¬ ((s.audio_buffer.flatten.length : ℚ) / sample_rate < min_process_duration))
    (hl : levelLtB s.audio_buffer.flatten process_level_floor = false)
    (ht : text ≠ []) :
    (_process_audio s (.ok text conf) g tb).1.messages
      = s.messages
          ++ userMessage text ((s.audio_buffer.flatten.length : ℚ) / sample_rate) conf
            :: (if (generate_response g).isEmpty then []
                else [assistantMessage (generate_response g)])
    ∧ (_process_audio s (.ok text conf) g tb).2 = true := by
  rw [process_audio_transcribed s text conf g tb hp hb hd hl ht]
  exact ⟨rfl, rfl⟩

/-- C9, witness: a 1-second utterance transcribed as `"What time is it"` with
the generation call raising an exception: the user message is recorded (and
the exception apology follows it). -/
theorem c9_witness :
    (_process_audio ⟨[List.replicate 16000 (1/10 : ℚ)], none, false, []⟩
        (.ok "What time is it".data (4/5)) .exception true).1.messages
      = [userMessage "What time is it".data 1 (4/5), assistantMessage apologyException]
    ∧ (_process_audio ⟨[List.replicate 16000 (1/10 : ℚ)], none, false, []⟩
        (.ok "What time is it".data (4/5)) .exception true).2 = true := by
  have h := c9_user_message_recorded ⟨[List.replicate 16000 (1/10 : ℚ)], none, false, []⟩
    "What time is it".data (4/5) .exception true rfl (List.cons_ne_nil _ _) dur16000
    level16000 (by decide)
  refine ⟨?_, h.2⟩
  rw [h.1]
  have hge : (generate_response GenOutcome.exception).isEmpty = false := by decide
  simp only [generate_response] at hge ⊢
  rw [hge]
  simp only [Bool.false_eq_true, if_false, List.nil_append]
  norm_num [sample_rate]

/-! ## Helper lemmas: the capture loop -/

theorem durationExceeded_iff (s : AgentState) :
    durationExceeded s = true ↔ max_recording_duration < bufDuration s := by
  simp [durationExceeded, bufDuration]

theorem process_audio_shape (s : AgentState) (tr : TranscriptionOutcome) (g : GenOutcome)
    (tb : Bool) (hp : s.is_processing = false) (hb : s.audio_buffer ≠ []) :
    ∃ s' b, _process_audio s tr g tb = (_reset_recording s', b) := by
  have hbe : s.audio_buffer.isEmpty = false := by simp [hb]
  cases tr with
  | failed =>
    simp only [_process_audio, hp, hbe, Bool.or_self, Bool.false_eq_true, if_false]
    split
    · exact ⟨s, false, rfl⟩
    · split
      · exact ⟨s, false, rfl⟩
      · exact ⟨s, true, rfl⟩
  | ok text conf =>
    simp only [_process_audio, hp, hbe, Bool.or_self, Bool.false_eq_true, if_false]
    split
    · exact ⟨s, false, rfl⟩
    · split
      · exact ⟨s, false, rfl⟩
      · cases hte : text.isEmpty
        · simp only [Bool.false_eq_true, if_false]
          exact ⟨_, true, rfl⟩
        · exact ⟨s, true, rfl⟩

theorem process_audio_resets (s : AgentState) (tr : TranscriptionOutcome) (g : GenOutcome)
    (tb : Bool) (hp : s.is_processing = false) (hb : s.audio_buffer ≠ []) :
    (_process_audio s tr g tb).1.audio_buffer = []
    ∧ (_process_audio s tr g tb).1.silence_start = none
    ∧ (_process_audio s tr g tb).1.is_processing = false := by
  obtain ⟨s', b, he⟩ := process_audio_shape s tr g tb hp hb
  rw [he]
  exact ⟨rfl, rfl, rfl⟩

theorem record_step_nonsilent (s : AgentState) (inp : FrameIn)
    (hsb : silenceB inp.frame silence_threshold = false) :
    _record_audio_step s inp
      = (if durationExceeded ⟨s.audio_buffer ++ [inp.frame], none, s.is_processing, s.messages⟩
        then
          ((_process_audio ⟨s.audio_buffer ++ [inp.frame], none, s.is_processing, s.messages⟩
              inp.tr inp.gen inp.ttsOk).1,
            some (.processed
              (_process_audio ⟨s.audio_buffer ++ [inp.frame], none, s.is_processing, s.messages⟩
                inp.tr inp.gen inp.ttsOk).2))
        else (⟨s.audio_buffer ++ [inp.frame], none, s.is_processing, s.messages⟩, none)) := by
  rw [_record_audio_step, hsb]
  rfl

theorem record_run_nonsilent (inputs : List FrameIn) :
    ∀ s : AgentState,
      (∀ inp ∈ inputs, ¬ detect_silence inp.frame silence_threshold) →
      s.silence_start = none → s.is_processing = false →
      bufDuration s ≤ max_recording_duration →
      (∀ st ∈ traceStates s inputs,
          bufDuration st ≤ max_recording_duration + chunk_size / sample_rate)
      ∧ capFinalizes s inputs := by
  have hfpos : (0:ℚ) ≤ chunk_size / sample_rate := by norm_num [chunk_size, sample_rate]
  induction inputs with
  | nil =>
    intro s _ _ _ hd
    constructor
    · intro st hst
      simp only [traceStates, List.mem_singleton] at hst
      subst hst
      linarith
    · trivial
  | cons inp rest ih =>
    intro s hns hss hip hd
    have hfns : ¬ detect_silence inp.frame silence_threshold := hns inp (List.mem_cons_self _ _)
    have hrest : ∀ p ∈ rest, ¬ detect_silence p.frame silence_threshold :=
      fun p hp => hns p (List.mem_cons_of_mem _ hp)
    have hsb : silenceB inp.frame silence_threshold = false := by
      cases hq : silenceB inp.frame silence_threshold
      · rfl
      · exact absurd ((silenceB_iff _ _ (by norm_num [silence_threshold])).mp hq) hfns
    have hstep := record_step_nonsilent s inp hsb
    by_cases hdur : durationExceeded
        ⟨s.audio_buffer ++ [inp.frame], none, s.is_processing, s.messages⟩ = true
    · have hproc := process_audio_resets
        ⟨s.audio_buffer ++ [inp.frame], none, s.is_processing, s.messages⟩
        inp.tr inp.gen inp.ttsOk hip (by simp)
      have hstep1 : (_record_audio_step s inp).1
          = (_process_audio ⟨s.audio_buffer ++ [inp.frame], none, s.is_processing, s.messages⟩
              inp.tr inp.gen inp.ttsOk).1 := by
        rw [hstep, if_pos hdur]
      have hstep2 : (_record_audio_step s inp).2
          = some (.processed
              (_process_audio ⟨s.audio_buffer ++ [inp.frame], none, s.is_processing, s.messages⟩
                inp.tr inp.gen inp.ttsOk).2) := by
        rw [hstep, if_pos hdur]
      have htail := ih (_record_audio_step s inp).1 hrest
        (by rw [hstep1]; exact hproc.2.1)
        (by rw [hstep1]; exact hproc.2.2)
        (by rw [hstep1, bufDuration, hproc.1]
            norm_num [max_recording_duration, chunk_size, sample_rate])
      constructor
      · intro st hst
        simp only [traceStates, List.mem_cons] at hst
        rcases hst with rfl | hmem
        · linarith
        · exact htail.1 st hmem
      · exact ⟨fun _ => ⟨_, hstep2⟩, htail.2⟩
    · have hdf : durationExceeded
          ⟨s.audio_buffer ++ [inp.frame], none, s.is_processing, s.messages⟩ = false := by
        simpa using hdur
      have hnot : ¬ (max_recording_duration < bufDuration
          ⟨s.audio_buffer ++ [inp.frame], none, s.is_processing, s.messages⟩) := by
        intro hcon
        rw [(durationExceeded_iff _).mpr hcon] at hdf
        exact absurd hdf (by simp)
      have hstep1 : (_record_audio_step s inp).1
          = ⟨s.audio_buffer ++ [inp.frame], none, s.is_processing, s.messages⟩ := by
        rw [hstep, if_neg (by simp [hdf])]
      have hstep2 : (_record_audio_step s inp).2 = none := by
        rw [hstep, if_neg (by simp [hdf])]
      have htail := ih (_record_audio_step s inp).1 hrest
        (by rw [hstep1]) (by rw [hstep1]; exact hip)
        (by rw [hstep1]; linarith [not_lt.mp hnot])
      constructor
      · intro st hst
        simp only [traceStates, List.mem_cons] at hst
        rcases hst with rfl | hmem
        · linarith
        · exact htail.1 st hmem
      · exact ⟨fun hcap => absurd hcap hnot, htail.2⟩

theorem nonsilent_one : ¬ detect_silence [(1:ℚ)] silence_threshold := by
  intro hcontra
  rw [detect_silence, if_neg (by simp)] at hcontra
  rw [calculate_audio_level, if_neg (by simp)] at hcontra
  have hms : meanSquare [(1:ℚ)] = 1 := by norm_num [meanSquare]
  rw [hms] at hcontra
  rw [Rat.cast_one, Real.sqrt_one] at hcontra
  rw [silence_threshold] at hcontra
  norm_num at hcontra

/-! ## Claim C8: the duration cap on non-silent speech -/

/-- C8: running the capture loop from the listening state over any sequence of
non-silent frames, (a) every state the loop passes through has buffered
duration at most `max_recording_duration` plus one frame's duration
(`chunk_size / sample_rate`), and (b) whenever the freshly appended frame
pushes the buffered duration over the cap, that same iteration finalizes the
utterance by invoking `_process_audio`. -/
theorem c8_duration_cap (msgs : List Message) (inputs : List FrameIn)
    (h : ∀ inp ∈ inputs, ¬ detect_silence inp.frame silence_threshold) :
    (∀ st ∈ traceStates (listeningState msgs) inputs,
        bufDuration st ≤ max_recording_duration + chunk_size / sample_rate)
    ∧ capFinalizes (listeningState msgs) inputs :=
  record_run_nonsilent inputs (listeningState msgs) h rfl rfl
    (by norm_num [bufDuration, listeningState, max_recording_duration, chunk_size, sample_rate])

/-- C8, witness: the duration-cap theorem at a one-frame run of a loud frame. -/
theorem c8_witness :
    (¬ detect_silence [(1:ℚ)] silence_threshold)
    ∧ (∀ st ∈ traceStates (listeningState [])
          [⟨[(1:ℚ)], 0, .ok "hi".data 1, .success [], true⟩],
        bufDuration st ≤ max_recording_duration + chunk_size / sample_rate)
    ∧ capFinalizes (listeningState []) [⟨[(1:ℚ)], 0, .ok "hi".data 1, .success [], true⟩] := by
  have h := c8_duration_cap [] [⟨[(1:ℚ)], 0, .ok "hi".data 1, .success [], true⟩]
    (fun inp hm => by
      rw [List.mem_singleton] at hm
      subst hm
      exact nonsilent_one)
  exact ⟨nonsilent_one, h.1, h.2⟩

/-! ## Helper lemmas: mean square of a concatenated buffer -/

theorem sumSquares_eq (xs : List ℚ) :
    (xs.map fun x => x * x).sum = meanSquare xs * xs.length := by
  by_cases hx : xs = []
  · subst hx; simp [meanSquare]
  · rw [meanSquare, if_neg hx]
    have hl : (xs.length : ℚ) ≠ 0 :=
      Nat.cast_ne_zero.mpr (fun h0 => hx (List.length_eq_zero.mp h0))
    field_simp

theorem meanSquare_flatten_lt {L : List (List ℚ)} {a : ℚ}
    (hall : ∀ f ∈ L, f = [] ∨ meanSquare f < a) (hne : L.flatten ≠ []) :
    meanSquare L.flatten < a := by
  have hlen : 0 < (L.flatten.length : ℚ) := by
    exact_mod_cast List.length_pos.mpr hne
  rw [meanSquare, if_neg hne, div_lt_iff₀ hlen]
  have h1 : (L.flatten.map fun x => x * x).sum
      = (L.map fun f => (f.map fun x => x * x).sum).sum := by
    rw [List.map_flatten, List.sum_flatten, List.map_map]
    rfl
  have h2 : (L.flatten.length : ℚ) = (L.map fun f => ((f.length : ℚ))).sum := by
    rw [List.length_flatten, Nat.cast_list_sum, List.map_map]
    rfl
  rw [h1, h2, ← List.sum_map_mul_left]
  apply List.sum_lt_sum
  · intro f hf
    rcases hall f hf with rfl | hlt
    · simp
    · rw [sumSquares_eq]
      rcases Nat.eq_zero_or_pos f.length with hfl | hfl
      · simp [hfl]
      · have hpos : (0:ℚ) < f.length := by exact_mod_cast hfl
        exact le_of_lt (mul_lt_mul_of_pos_right hlt hpos)
  · have hex : ∃ f ∈ L, f ≠ [] := by
      by_contra hcon
      push_neg at hcon
      exact hne (List.flatten_eq_nil_iff.mpr hcon)
    obtain ⟨f, hfL, hfne⟩ := hex
    refine ⟨f, hfL, ?_⟩
    rcases hall f hfL with rfl | hlt
    · exact absurd rfl hfne
    · rw [sumSquares_eq]
      have hpos : (0:ℚ) < f.length := by
        exact_mod_cast List.length_pos.mpr hfne
      exact mul_lt_mul_of_pos_right hlt hpos

/-! ## Helper lemmas: all-silent frame sequences -/

theorem silent_frame_ms {f : List ℚ} (h : detect_silence f silence_threshold) :
    f = [] ∨ meanSquare f < silence_threshold * silence_threshold := by
  have hb := (silenceB_iff f silence_threshold (by norm_num [silence_threshold])).mpr h
  simp only [silenceB, levelLtB, Bool.or_eq_true, List.isEmpty_iff,
    decide_eq_true_eq] at hb
  exact hb

theorem flatten_silent_levelLtB {L : List (List ℚ)}
    (hall : ∀ f ∈ L, f = [] ∨ meanSquare f < silence_threshold * silence_threshold) :
    levelLtB L.flatten process_level_floor = true := by
  by_cases hfe : L.flatten = []
  · simp [levelLtB, hfe]
  · have hms := meanSquare_flatten_lt hall hfe
    have hms2 : meanSquare L.flatten < process_level_floor * process_level_floor := by
      rw [process_level_floor]
      rw [silence_threshold] at hms
      exact hms
    simp [levelLtB, List.isEmpty_eq_false.mpr hfe, hms2]

theorem flatten_silent_levelGtB {L : List (List ℚ)}
    (hall : ∀ f ∈ L, f = [] ∨ meanSquare f < silence_threshold * silence_threshold) :
    levelGtB L.flatten min_utterance_level = false := by
  by_cases hfe : L.flatten = []
  · simp [levelGtB, hfe]
  · have hms := meanSquare_flatten_lt hall hfe
    rw [silence_threshold] at hms
    have hnot : ¬ (min_utterance_level * min_utterance_level < meanSquare L.flatten) := by
      rw [min_utterance_level]
      norm_num
      linarith
    simp [levelGtB, List.isEmpty_eq_false.mpr hfe, hnot]

theorem process_audio_quiet (s : AgentState) (tr : TranscriptionOutcome) (g : GenOutcome)
    (tb : Bool) (hp : s.is_processing = false) (hb : s.audio_buffer ≠ [])
    (hq : levelLtB s.audio_buffer.flatten process_level_floor = true) :
    _process_audio s tr g tb = (_reset_recording s, false) := by
  have hbe : s.audio_buffer.isEmpty = false := by simp [hb]
  rw [_process_audio, hp, hbe]
  simp only [Bool.or_self, Bool.false_eq_true, if_false]
  split
  · rfl
  · simp [hq]

theorem record_step_silent (s : AgentState) (inp : FrameIn)
    (hsb : silenceB inp.frame silence_threshold = true) :
    _record_audio_step s inp
      = (if silenceFired ⟨s.audio_buffer ++ [inp.frame], some (s.silence_start.getD inp.now),
            s.is_processing, s.messages⟩ inp.now then
          if levelGtB (s.audio_buffer ++ [inp.frame]).flatten min_utterance_level then
            ((_process_audio ⟨s.audio_buffer ++ [inp.frame],
                some (s.silence_start.getD inp.now), s.is_processing, s.messages⟩
                inp.tr inp.gen inp.ttsOk).1,
              some (.processed (_process_audio ⟨s.audio_buffer ++ [inp.frame],
                some (s.silence_start.getD inp.now), s.is_processing, s.messages⟩
                inp.tr inp.gen inp.ttsOk).2))
          else (_reset_recording ⟨s.audio_buffer ++ [inp.frame],
            some (s.silence_start.getD inp.now), s.is_processing, s.messages⟩,
            some .discarded)
        else if durationExceeded ⟨s.audio_buffer ++ [inp.frame],
            some (s.silence_start.getD inp.now), s.is_processing, s.messages⟩ then
          ((_process_audio ⟨s.audio_buffer ++ [inp.frame],
              some (s.silence_start.getD inp.now), s.is_processing, s.messages⟩
              inp.tr inp.gen inp.ttsOk).1,
            some (.processed (_process_audio ⟨s.audio_buffer ++ [inp.frame],
              some (s.silence_start.getD inp.now), s.is_processing, s.messages⟩
              inp.tr inp.gen inp.ttsOk).2))
        else (⟨s.audio_buffer ++ [inp.frame], some (s.silence_start.getD inp.now),
          s.is_processing, s.messages⟩, none)) := by
  rw [_record_audio_step, hsb]
  rfl

theorem record_run_silent (inputs : List FrameIn) :
    ∀ s : AgentState,
      (∀ inp ∈ inputs, detect_silence inp.frame silence_threshold) →
      s.is_processing = false →
      (∀ f ∈ s.audio_buffer, f = [] ∨ meanSquare f < silence_threshold * silence_threshold) →
      ∀ ev ∈ (_record_audio s inputs).2, ev = .discarded ∨ ev = .processed false := by
  induction inputs with
  | nil =>
    intro s _ _ _ ev hev
    simp [_record_audio] at hev
  | cons inp rest ih =>
    intro s hsil hip hall ev hev
    have hfs : detect_silence inp.frame silence_threshold := hsil inp (List.mem_cons_self _ _)
    have hrest : ∀ p ∈ rest, detect_silence p.frame silence_threshold :=
      fun p hp => hsil p (List.mem_cons_of_mem _ hp)
    have hsb : silenceB inp.frame silence_threshold = true :=
      (silenceB_iff _ _ (by norm_num [silence_threshold])).mpr hfs
    have hall2 : ∀ f ∈ s.audio_buffer ++ [inp.frame],
        f = [] ∨ meanSquare f < silence_threshold * silence_threshold := by
      intro f hf
      rcases List.mem_append.mp hf with hf | hf
      · exact hall f hf
      · rw [List.mem_singleton] at hf
        subst hf
        exact silent_frame_ms hfs
    have hstep := record_step_silent s inp hsb
    simp only [_record_audio] at hev
    by_cases hsf : silenceFired ⟨s.audio_buffer ++ [inp.frame],
        some (s.silence_start.getD inp.now), s.is_processing, s.messages⟩ inp.now = true
    · have hgt : levelGtB (s.audio_buffer ++ [inp.frame]).flatten min_utterance_level = false :=
        flatten_silent_levelGtB hall2
      have hstepeq : _record_audio_step s inp
          = (_reset_recording ⟨s.audio_buffer ++ [inp.frame],
              some (s.silence_start.getD inp.now), s.is_processing, s.messages⟩,
             some .discarded) := by
        rw [hstep, if_pos hsf, if_neg (by rw [hgt]; exact Bool.false_ne_true)]
      rw [hstepeq] at hev
      simp only [Option.toList_some, List.cons_append, List.nil_append,
        List.mem_cons] at hev
      rcases hev with rfl | htl
      · exact Or.inl rfl
      · exact ih _ hrest rfl (by intro f hf; exact absurd hf (List.not_mem_nil f)) ev htl
    · by_cases hdur : durationExceeded ⟨s.audio_buffer ++ [inp.frame],
          some (s.silence_start.getD inp.now), s.is_processing, s.messages⟩ = true
      · have hq : levelLtB (s.audio_buffer ++ [inp.frame]).flatten process_level_floor = true :=
          flatten_silent_levelLtB hall2
        have hpa := process_audio_quiet ⟨s.audio_buffer ++ [inp.frame],
            some (s.silence_start.getD inp.now), s.is_processing, s.messages⟩
            inp.tr inp.gen inp.ttsOk hip (by simp) hq
        have hstepeq : _record_audio_step s inp
            = (_reset_recording ⟨s.audio_buffer ++ [inp.frame],
                some (s.silence_start.getD inp.now), s.is_processing, s.messages⟩,
               some (.processed false)) := by
          rw [hstep, if_neg (by simp [hsf]), if_pos hdur, hpa]
        rw [hstepeq] at hev
        simp only [Option.toList_some, List.cons_append, List.nil_append,
          List.mem_cons] at hev
        rcases hev with rfl | htl
        · exact Or.inr rfl
        · exact ih _ hrest rfl (by intro f hf; exact absurd hf (List.not_mem_nil f)) ev htl
      · have hstepeq : _record_audio_step s inp
            = (⟨s.audio_buffer ++ [inp.frame], some (s.silence_start.getD inp.now),
                s.is_processing, s.messages⟩, none) := by
          rw [hstep, if_neg (by simp [hsf]), if_neg (by simp [hdur])]
        rw [hstepeq] at hev
        simp only [Option.toList_none, List.nil_append] at hev
        exact ih ⟨s.audio_buffer ++ [inp.frame], some (s.silence_start.getD inp.now),
          s.is_processing, s.messages⟩ hrest hip hall2 ev hev

/-! ## Claim C6: sub-threshold frame sequences and transcription -/

/-- C6, amended: for frames that the per-frame silence policy classifies as
silent (RMS below `silenceThreshold`, the threshold the silence timer actually
uses), the capture loop never hands the buffer to transcription: every event
of the run is either the silence discard, or a `_process_audio` call that
rejects the buffer (too short or below the level floor) before transcription.
The original claim used `minUtteranceLevel` (0.02): frames with RMS between
`silenceThreshold` (0.01) and 0.02 never start the silence timer, can run to
the duration cap and **are** handed to transcription (see the
counterexample). -/
theorem c6_silent_frames_never_transcribed (msgs : List Message) (inputs : List FrameIn)
    (h : ∀ inp ∈ inputs, detect_silence inp.frame silence_threshold) :
    ∀ ev ∈ (_record_audio (listeningState msgs) inputs).2,
      ev = .discarded ∨ ev = .processed false :=
  record_run_silent inputs (listeningState msgs) h rfl
    (by intro f hf; exact absurd hf (List.not_mem_nil f))

/-- C6, witness: two seconds of empty (silent) frames produce exactly one
Discard event, and every event of that run is a discard or a rejected
processing call. -/
theorem c6_witness :
    detect_silence ([] : List ℚ) silence_threshold
    ∧ (_record_audio (listeningState [])
        [⟨[], 0, .ok "hi".data 1, .success [], true⟩,
         ⟨[], 2, .ok "hi".data 1, .success [], true⟩]).2 = [.discarded]
    ∧ ∀ ev ∈ (_record_audio (listeningState [])
        [⟨[], 0, .ok "hi".data 1, .success [], true⟩,
         ⟨[], 2, .ok "hi".data 1, .success [], true⟩]).2,
        ev = .discarded ∨ ev = .processed false := by
  refine ⟨by simp [detect_silence], ?_, ?_⟩
  · norm_num [_record_audio, _record_audio_step, silenceB, levelLtB, levelGtB, silenceFired,
      durationExceeded, meanSquare, silence_threshold, silence_duration,
      max_recording_duration, chunk_size, sample_rate, min_utterance_level,
      _reset_recording, listeningState]
  exact c6_silent_frames_never_transcribed []
    [⟨[], 0, .ok "hi".data 1, .success [], true⟩, ⟨[], 2, .ok "hi".data 1, .success [], true⟩]
    (fun inp hm => by
      rcases List.mem_cons.mp hm with rfl | hm
      · simp [detect_silence]
      · rw [List.mem_singleton] at hm
        subst hm
        simp [detect_silence])

/-! ## Helper lemmas: runs of identical sub-0.02 frames -/

theorem record_audio_append (l1 l2 : List FrameIn) : ∀ s : AgentState,
    _record_audio s (l1 ++ l2)
      = ((_record_audio (_record_audio s l1).1 l2).1,
         (_record_audio s l1).2 ++ (_record_audio (_record_audio s l1).1 l2).2) := by
  induction l1 with
  | nil => intro s; simp [_record_audio]
  | cons a t ih =>
    intro s
    simp only [List.cons_append, _record_audio, List.append_eq, ih, List.append_assoc]

theorem durationExceeded_le {n : ℕ} (hn : n ≤ 468) (buf : List (List ℚ))
    (hlen : buf.length = n) (ss : Option ℚ) (ip : Bool) (msgs : List Message) :
    durationExceeded ⟨buf, ss, ip, msgs⟩ = false := by
  simp only [durationExceeded, decide_eq_false_iff_not, not_lt]
  show (buf.length : ℚ) * chunk_size / sample_rate ≤ max_recording_duration
  rw [hlen, chunk_size, sample_rate, max_recording_duration, div_le_iff₀ (by norm_num)]
  have hq : (n:ℚ) ≤ 468 := by exact_mod_cast hn
  nlinarith

theorem record_run_const (f : List ℚ) (tr : TranscriptionOutcome) (g : GenOutcome) (tb : Bool)
    (hsb : silenceB f silence_threshold = false) :
    ∀ (m : ℕ), ∀ (j : ℕ), j + m ≤ 468 → ∀ (s : AgentState),
      s.audio_buffer = List.replicate j f → s.silence_start = none →
      s.is_processing = false →
      _record_audio s (List.replicate m ⟨f, 0, tr, g, tb⟩)
        = (⟨List.replicate (j + m) f, none, false, s.messages⟩, []) := by
  intro m
  induction m with
  | zero =>
    intro j hjm s hbuf hss hip
    rcases s with ⟨b, ss, ip, ms⟩
    simp only [List.replicate_zero, _record_audio, Nat.add_zero]
    simp_all
  | succ m ih =>
    intro j hjm s hbuf hss hip
    rw [List.replicate_succ]
    simp only [_record_audio]
    rw [record_step_nonsilent s ⟨f, 0, tr, g, tb⟩ hsb]
    have hlen : (s.audio_buffer ++ [f]).length = j + 1 := by
      rw [List.length_append, hbuf, List.length_replicate]
      rfl
    have hdf : durationExceeded ⟨s.audio_buffer ++ [f], none, s.is_processing,
        s.messages⟩ = false :=
      durationExceeded_le (by omega) _ hlen _ _ _
    rw [if_neg (by rw [hdf]; exact Bool.false_ne_true)]
    have hrec := ih (j+1) (by omega)
      ⟨s.audio_buffer ++ [f], none, s.is_processing, s.messages⟩
      (by show s.audio_buffer ++ [f] = _
          rw [hbuf, ← List.replicate_succ'])
      rfl hip
    rw [hrec]
    simp only [Option.toList_none, List.nil_append]
    have hnum : j + 1 + m = j + (m + 1) := by omega
    rw [hnum]

/-- C6, counterexample: frames of RMS 0.015 — below `minUtteranceLevel` (0.02)
but at or above `silenceThreshold` (0.01) — never start the silence timer;
469 such frames (spanning 30 s, far longer than `silenceDurationSec`) run into
the duration cap and the buffer **is** handed to transcription: the run emits
exactly one processing event with transcription attempted, and no Discard. -/
theorem c6_counterexample :
    calculate_audio_level (List.replicate 1024 (3/200 : ℚ)) < ((2/100 : ℚ) : ℝ)
    ∧ silence_duration < (469 : ℚ) * chunk_size / sample_rate
    ∧ (_record_audio (listeningState [])
        (List.replicate 469 (⟨List.replicate 1024 (3/200 : ℚ), 0, .ok "hi".data 1,
          .success [], true⟩ : FrameIn))).2 = [.processed true] := by
  have hfne : List.replicate 1024 (3/200 : ℚ) ≠ [] :=
    List.length_pos.mp (by rw [List.length_replicate]; norm_num)
  have hms : meanSquare (List.replicate 1024 (3/200 : ℚ)) = (3/200) * (3/200) :=
    meanSquare_replicate 1024 _ (by norm_num)
  refine ⟨?_, ?_, ?_⟩
  · refine (levelLtB_iff _ (2/100) (by norm_num)).mp ?_
    rw [levelLtB, hms, List.isEmpty_eq_false.mpr hfne]
    simp only [Bool.false_or, decide_eq_true_eq]
    norm_num
  · norm_num [silence_duration, chunk_size, sample_rate]
  · have hsb : silenceB (List.replicate 1024 (3/200 : ℚ)) silence_threshold = false := by
      rw [silenceB, levelLtB, hms, List.isEmpty_eq_false.mpr hfne]
      simp only [Bool.false_or, decide_eq_false_iff_not, silence_threshold]
      norm_num
    have h469 : List.replicate 469 (⟨List.replicate 1024 (3/200 : ℚ), 0, .ok "hi".data 1,
          .success [], true⟩ : FrameIn)
        = List.replicate 468 (⟨List.replicate 1024 (3/200 : ℚ), 0, .ok "hi".data 1,
          .success [], true⟩ : FrameIn) ++ [⟨List.replicate 1024 (3/200 : ℚ), 0,
          .ok "hi".data 1, .success [], true⟩] := List.replicate_succ' 468 _
    rw [h469, record_audio_append]
    have hconst := record_run_const (List.replicate 1024 (3/200 : ℚ)) (.ok "hi".data 1)
      (.success []) true hsb 468 0 (by omega) (listeningState []) rfl rfl rfl
    rw [hconst]
    simp only [Nat.zero_add, List.nil_append, listeningState]
    simp only [_record_audio]
    rw [record_step_nonsilent ⟨List.replicate 468 (List.replicate 1024 (3/200 : ℚ)), none,
      false, []⟩ ⟨List.replicate 1024 (3/200 : ℚ), 0, .ok "hi".data 1, .success [], true⟩
      hsb]
    have hdt : durationExceeded ⟨List.replicate 468 (List.replicate 1024 (3/200 : ℚ))
        ++ [List.replicate 1024 (3/200 : ℚ)], none, false, []⟩ = true := by
      simp only [durationExceeded, decide_eq_true_eq, List.length_append,
        List.length_replicate, List.length_cons, List.length_nil]
      norm_num [chunk_size, sample_rate, max_recording_duration]
    rw [if_pos hdt]
    have hfl : ((List.replicate 468 (List.replicate 1024 (3/200 : ℚ))
        ++ [List.replicate 1024 (3/200 : ℚ)]) : List (List ℚ)).flatten
        = List.replicate 480256 (3/200 : ℚ) := by
      rw [List.flatten_append, flatten_replicate, List.flatten_cons, List.flatten_nil,
        List.append_nil, ← List.replicate_add]
    have hd : ¬ ((((List.replicate 468 (List.replicate 1024 (3/200 : ℚ))
        ++ [List.replicate 1024 (3/200 : ℚ)]) : List (List ℚ)).flatten.length : ℚ)
          / sample_rate < min_process_duration) := by
      rw [hfl, List.length_replicate, sample_rate, min_process_duration]
      norm_num
    have hlq : levelLtB ((List.replicate 468 (List.replicate 1024 (3/200 : ℚ))
        ++ [List.replicate 1024 (3/200 : ℚ)]) : List (List ℚ)).flatten
          process_level_floor = false := by
      have h480 : List.replicate 480256 (3/200 : ℚ) ≠ [] :=
        List.length_pos.mp (by rw [List.length_replicate]; norm_num)
      rw [hfl, levelLtB, meanSquare_replicate 480256 _ (by norm_num),
        List.isEmpty_eq_false.mpr h480]
      simp only [Bool.false_or, decide_eq_false_iff_not, process_level_floor]
      norm_num
    rw [process_audio_transcribed ⟨List.replicate 468 (List.replicate 1024 (3/200 : ℚ))
        ++ [List.replicate 1024 (3/200 : ℚ)], none, false, []⟩ "hi".data 1 (.success [])
        true rfl
        (List.length_pos.mp (by
          rw [List.length_append, List.length_replicate, List.length_singleton]
          norm_num))
        hd hlq (by decide)]
    rfl
